import Mathlib

/-!
Verification development for the cozy-stack lock subsystem and the account
credential encryption routines.

Embedded source:
* `src/unnamed/part_001` (package `lock`): the `New` factory, the
  `longOperation` wrapper around a renewable locker, and the lock interfaces.
* `src/model/account/credentials.go` (package `account`):
  `EncryptCredentialsWithKey` / `DecryptCredentialsWithKey`.

Machine integers are modelled as `Nat` with explicit `% 2^w` where overflow
matters; Go byte slices and strings are modelled as `List Nat` (byte lists) or
`List Char`; the concurrent `longOperation` wrapper is modelled as a small-step
transition system over an explicit state record, with one step constructor per
atomic action of the Go code.
-/

namespace CozyLock

/-! ## The lock getter factory (`New`, src/unnamed/part_001 lines 23-29) -/

/-- Which concrete `Getter` implementation the factory returns. -/
inductive GetterKind
  | inMemory
  | redis
  deriving DecidableEq

/-- Embedding of `New` (src/unnamed/part_001 lines 23-29): if the redis client
is nil it returns the in-memory getter (`NewInMemory()`), otherwise the
redis-backed getter (`NewRedisLockGetter(client)`). The Go nilable
`redis.UniversalClient` is modelled as an `Option` over an arbitrary client
type. -/
def New {C : Type*} (client : Option C) : GetterKind :=
  match client with
  | none => GetterKind.inMemory
  | some _ => GetterKind.redis

/-! ## The `longOperation` wrapper (src/unnamed/part_001 lines 44-90)

The wrapper owns a wrapped renewable locker `l.lock`, a private mutex `l.mu`,
a ticker field `l.tick` (nil or a `*time.Ticker`), and a duration `l.timeout`.
`Lock()` delegates to the wrapped lock and on success creates a ticker of
period `timeout/3` and spawns a renewal goroutine; `Unlock()` stops and clears
the ticker under the mutex, then calls the wrapped lock's `Unlock`.

The concurrent behaviour after a successful `Lock()` is modelled as a
transition system: one background renewal goroutine, one caller thread that
may invoke `Unlock()`, and the ticker delivering ticks into its channel
(capacity one, as for Go's `time.Ticker`; `Stop` prevents further ticks but
does not close the channel and does not drain a buffered tick). -/

/-- Program counter of the renewal goroutine spawned by `longOperation.Lock`
(the `go func() { ... }()` body, src/unnamed/part_001 lines 61-78). -/
inductive GoPC
  /-- No goroutine has been spawned. -/
  | notStarted
  /-- Top of the `for` loop, about to `l.mu.Lock()`. -/
  | loopTop
  /-- Holding `l.mu`, about to test `l.tick == nil` and read `l.tick.C`. -/
  | checkTop
  /-- Released `l.mu`, blocked on `<-ch`. -/
  | waitTick
  /-- Received a tick, about to `l.mu.Lock()` again. -/
  | lockBottom
  /-- Holding `l.mu`, about to test `l.tick == nil` and then `Extend`. -/
  | checkBottom
  /-- The goroutine returned. -/
  | done
  deriving DecidableEq

/-- Program counter of the caller thread inside `longOperation.Unlock`
(src/unnamed/part_001 lines 82-90). -/
inductive UnPC
  /-- `Unlock()` has not been invoked. -/
  | notCalled
  /-- `Unlock()` invoked, about to `l.mu.Lock()`. -/
  | acquiring
  /-- Holding `l.mu`, about to test `l.tick != nil` and stop/clear it. -/
  | critical
  /-- Ticker stopped and field cleared (or was already nil), about to call
  the wrapped `l.lock.Unlock()`. -/
  | cleared
  /-- Wrapped unlock done, about to run the deferred `l.mu.Unlock()`. -/
  | innerDone
  /-- `Unlock()` returned. -/
  | returned
  deriving DecidableEq

/-- Owner of the private mutex `l.mu`. -/
inductive MuOwner
  | free
  | renewer
  | caller
  deriving DecidableEq

/-- State of one `longOperation` instance together with the observable calls
it has made on the wrapped lock. `tick` is the `l.tick` field (`some period`
for a live pointer, `none` for nil); `tickerActive` records whether the
underlying `time.Ticker` is still running (`Stop()` not yet called);
`pendingTick` is the one-slot ticker channel buffer. `tasksStarted`,
`extendCalls` and `innerUnlocks` count spawned renewal goroutines, `Extend()`
calls and wrapped `Unlock()` calls. -/
structure LOState where
  tick : Option Nat
  tickerActive : Bool
  pendingTick : Bool
  mu : MuOwner
  goPC : GoPC
  unPC : UnPC
  tasksStarted : Nat
  extendCalls : Nat
  innerUnlocks : Nat
  deriving DecidableEq

/-- Embedding of `longOperation.Lock` (src/unnamed/part_001 lines 56-80).
`innerResult` is the outcome of the wrapped locker's `Lock()` call (`some e` =
error `e`, `none` = success). On error the error is returned and nothing else
happens; on success the ticker is created with period `timeout / 3` (integer
division of the duration; `time.NewTicker` requires the period to be positive,
which the theorems assume as `3 ≤ timeout`) and the renewal goroutine is
spawned. Returns the error result paired with the new state. -/
def longOperationLock {E : Type*} (timeout : Nat) (innerResult : Option E)
    (s : LOState) : Option E × LOState :=
  match innerResult with
  | some e => (some e, s)
  | none =>
      (none, { s with tick := some (timeout / 3), tickerActive := true,
                      goPC := GoPC.loopTop, tasksStarted := s.tasksStarted + 1 })

/-- One atomic action of the system after a successful `Lock()`: the ticker
firing, a step of the renewal goroutine, or a step of a caller invoking
`Unlock()`. Each constructor corresponds to one atomic action of the Go code
in src/unnamed/part_001 lines 61-90. -/
inductive Step : LOState → LOState → Prop
  /-- The running ticker delivers a tick into its one-slot channel (dropped
  when the slot is full; impossible once `Stop()` was called). -/
  | tickFire {s : LOState} : s.tickerActive = true → s.pendingTick = false →
      Step s { s with pendingTick := true }
  /-- Goroutine: `l.mu.Lock()` at the top of the loop. -/
  | goLockTop {s : LOState} : s.goPC = GoPC.loopTop → s.mu = MuOwner.free →
      Step s { s with mu := MuOwner.renewer, goPC := GoPC.checkTop }
  /-- Goroutine: `l.tick == nil` at the top check, so return (the deferred
  `l.mu.Unlock()` runs). -/
  | goExitTop {s : LOState} : s.goPC = GoPC.checkTop → s.tick = none →
      Step s { s with mu := MuOwner.free, goPC := GoPC.done }
  /-- Goroutine: `l.tick != nil`, so read `ch := l.tick.C` and `l.mu.Unlock()`,
  then block on `<-ch`. -/
  | goReadCh {s : LOState} : s.goPC = GoPC.checkTop → s.tick ≠ none →
      Step s { s with mu := MuOwner.free, goPC := GoPC.waitTick }
  /-- Goroutine: receive a buffered tick from the channel. -/
  | goRecv {s : LOState} : s.goPC = GoPC.waitTick → s.pendingTick = true →
      Step s { s with pendingTick := false, goPC := GoPC.lockBottom }
  /-- Goroutine: `l.mu.Lock()` after receiving a tick. -/
  | goLockBottom {s : LOState} : s.goPC = GoPC.lockBottom → s.mu = MuOwner.free →
      Step s { s with mu := MuOwner.renewer, goPC := GoPC.checkBottom }
  /-- Goroutine: `l.tick == nil` at the bottom check, so return without
  extending (the deferred `l.mu.Unlock()` runs). -/
  | goExitBottom {s : LOState} : s.goPC = GoPC.checkBottom → s.tick = none →
      Step s { s with mu := MuOwner.free, goPC := GoPC.done }
  /-- Goroutine: `l.tick != nil`, so `l.lock.Extend()` then `l.mu.Unlock()`
  and loop. -/
  | goExtend {s : LOState} : s.goPC = GoPC.checkBottom → s.tick ≠ none →
      Step s { s with extendCalls := s.extendCalls + 1, mu := MuOwner.free,
                      goPC := GoPC.loopTop }
  /-- Caller: invoke `Unlock()`. -/
  | unCall {s : LOState} : s.unPC = UnPC.notCalled →
      Step s { s with unPC := UnPC.acquiring }
  /-- Caller: `l.mu.Lock()` at the start of `Unlock`. -/
  | unStart {s : LOState} : s.unPC = UnPC.acquiring → s.mu = MuOwner.free →
      Step s { s with mu := MuOwner.caller, unPC := UnPC.critical }
  /-- Caller: `l.tick != nil`, so `l.tick.Stop()` and `l.tick = nil`. -/
  | unClearSome {s : LOState} : s.unPC = UnPC.critical → s.tick ≠ none →
      Step s { s with tick := none, tickerActive := false, unPC := UnPC.cleared }
  /-- Caller: `l.tick == nil` already, so skip the stop/clear branch. -/
  | unClearNone {s : LOState} : s.unPC = UnPC.critical → s.tick = none →
      Step s { s with unPC := UnPC.cleared }
  /-- Caller: the wrapped `l.lock.Unlock()` call. -/
  | unInner {s : LOState} : s.unPC = UnPC.cleared →
      Step s { s with innerUnlocks := s.innerUnlocks + 1, unPC := UnPC.innerDone }
  /-- Caller: the deferred `l.mu.Unlock()`, after which `Unlock()` returns. -/
  | unRelease {s : LOState} : s.unPC = UnPC.innerDone →
      Step s { s with mu := MuOwner.free, unPC := UnPC.returned }

/-- Finitely many steps of the system. -/
def Steps : LOState → LOState → Prop := Relation.ReflTransGen Step

/-- The state of a freshly constructed `longOperation` wrapper: nil ticker,
no goroutine, `Unlock` not called, no calls on the wrapped lock yet. -/
def idleState : LOState :=
  { tick := none, tickerActive := false, pendingTick := false,
    mu := MuOwner.free, goPC := GoPC.notStarted, unPC := UnPC.notCalled,
    tasksStarted := 0, extendCalls := 0, innerUnlocks := 0 }

/-- The state right after a successful `Lock()` on a fresh wrapper. -/
def heldState (timeout : Nat) : LOState :=
  (longOperationLock timeout (none : Option Empty) idleState).2

/-- The held state after the renewal goroutine has processed `k` ticks. -/
def ticked (timeout k : Nat) : LOState :=
  { heldState timeout with extendCalls := k }

/-- One full renewal iteration of the goroutine, stated on an explicit state:
lock the mutex, see a live ticker, wait for a tick, receive it, re-lock,
re-check, `Extend`, release — the net effect is one more `Extend` call. -/
lemma renewal_round (tick : Option Nat) (un : UnPC) (ts ec iu : Nat)
    (htick : tick ≠ none) :
    Steps ⟨tick, true, false, MuOwner.free, GoPC.loopTop, un, ts, ec, iu⟩
      ⟨tick, true, false, MuOwner.free, GoPC.loopTop, un, ts, ec + 1, iu⟩ :=
  Relation.ReflTransGen.head (Step.goLockTop rfl rfl) <|
    Relation.ReflTransGen.head (Step.goReadCh rfl htick) <|
      Relation.ReflTransGen.head (Step.tickFire rfl rfl) <|
        Relation.ReflTransGen.head (Step.goRecv rfl rfl) <|
          Relation.ReflTransGen.head (Step.goLockBottom rfl rfl) <|
            Relation.ReflTransGen.single (Step.goExtend rfl htick)

/-- From the held state, the renewal goroutine can process any number `k` of
ticks, calling `Extend` once per tick. -/
lemma ticked_reachable (timeout k : Nat) :
    Steps (heldState timeout) (ticked timeout k) := by
  induction k with
  | zero => exact Relation.ReflTransGen.refl
  | succ k ih =>
      exact Relation.ReflTransGen.trans ih
        (renewal_round (some (timeout / 3)) UnPC.notCalled 1 k 0 (by simp))

/-- No step of the system ever spawns a renewal goroutine: `tasksStarted` is
constant along every execution (only `longOperationLock` increments it). -/
lemma tasksStarted_stable {s s' : LOState} (h : Steps s s') :
    s'.tasksStarted = s.tasksStarted := by
  induction h with
  | refl => rfl
  | tail _ st ih => cases st <;> exact ih

/-- Once the ticker field is nil it stays nil, and no further `Extend` call
ever happens: the only step that performs `Extend` (`goExtend`) requires a
non-nil ticker field, checked under the mutex, and no step re-installs a
ticker. -/
lemma extend_stable_of_tick_none {s s' : LOState} (h : Steps s s')
    (htick : s.tick = none) : s'.tick = none ∧ s'.extendCalls = s.extendCalls := by
  induction h with
  | refl => exact ⟨htick, rfl⟩
  | tail _ st ih =>
      obtain ⟨h1, h2⟩ := ih
      cases st <;> simp_all

/-- The state reached when, with `timeout = 30`, the renewal goroutine blocks
on the tick channel before any tick fires and the caller then runs `Unlock()`
to completion: ticker stopped and cleared, wrapped lock released once, but the
goroutine still parked on `<-ch`. -/
def stuckState : LOState :=
  { tick := none, tickerActive := false, pendingTick := false,
    mu := MuOwner.free, goPC := GoPC.waitTick, unPC := UnPC.returned,
    tasksStarted := 1, extendCalls := 0, innerUnlocks := 1 }

/-- The stuck state is reachable from the held state: the goroutine reads the
ticker channel and blocks, then `Unlock()` runs to completion before any tick
fires. -/
lemma stuck_reachable : Steps (heldState 30) stuckState :=
  Relation.ReflTransGen.head (Step.goLockTop rfl rfl) <|
    Relation.ReflTransGen.head (Step.goReadCh rfl (by decide)) <|
      Relation.ReflTransGen.head (Step.unCall rfl) <|
        Relation.ReflTransGen.head (Step.unStart rfl rfl) <|
          Relation.ReflTransGen.head (Step.unClearSome rfl (by decide)) <|
            Relation.ReflTransGen.head (Step.unInner rfl) <|
              Relation.ReflTransGen.single (Step.unRelease rfl)

/-- No action of the system is enabled in the stuck state: the ticker is
stopped and its channel empty, so the goroutine's `<-ch` can never complete. -/
lemma stuck_no_step (s' : LOState) (h : Step stuckState s') : False := by
  cases h <;> simp_all [stuckState]

/-- The stuck state is terminal: every execution from it stays there. -/
lemma stuck_stays (s' : LOState) (h : Steps stuckState s') : s' = stuckState := by
  induction h with
  | refl => rfl
  | tail _ st ih =>
      rw [ih] at st
      exact (stuck_no_step _ st).elim

/-! ## Claim theorems about the `longOperation` wrapper -/

/-- **C1.** When the wrapped locker's `Lock()` succeeds, `longOperation.Lock()`
returns nil, installs a ticker of period `timeout / 3`, and starts exactly one
background renewal goroutine (and no step of the running system ever starts
another); the goroutine calls `Extend()` on the wrapped lock once per
processed tick, for any number of ticks, until told to stop. `3 ≤ timeout` is
assumed because `time.NewTicker` requires a positive period. -/
theorem lock_success_starts_single_renewal (timeout : Nat) (ht : 3 ≤ timeout) :
    (longOperationLock timeout (none : Option Empty) idleState).1 = none ∧
    (heldState timeout).tick = some (timeout / 3) ∧
    (heldState timeout).goPC = GoPC.loopTop ∧
    (heldState timeout).tasksStarted = idleState.tasksStarted + 1 ∧
    (∀ k : Nat, Steps (heldState timeout) (ticked timeout k) ∧
      (ticked timeout k).extendCalls = k) ∧
    (∀ s s' : LOState, Steps s s' → s'.tasksStarted = s.tasksStarted) := by
  refine ⟨rfl, rfl, rfl, rfl, fun k => ⟨ticked_reachable timeout k, rfl⟩, ?_⟩
  intro s s' h
  exact tasksStarted_stable h

/-- Witness for **C1** at `timeout = 30`, with the stability conjunct applied
to the one-tick execution from the held state. -/
theorem lock_success_starts_single_renewal_witness :
    (3 ≤ 30 ∧ (heldState 30).tick = some 10 ∧ (heldState 30).tasksStarted = 1) ∧
    (ticked 30 2).tasksStarted = (heldState 30).tasksStarted := by
  have h := lock_success_starts_single_renewal 30 (by norm_num)
  exact ⟨⟨by norm_num, h.2.1, h.2.2.2.1⟩,
    h.2.2.2.2.2 (heldState 30) (ticked 30 2) (h.2.2.2.2.1 2).1⟩

/-- **C2.** In every interleaving of the renewal goroutine, the ticker and the
caller's `Unlock()` (all serialized through the private mutex in the model's
step relation): once a reachable state has the ticker field nil — which is
what `Unlock` establishes when it begins releasing — no later state has a
larger `Extend` count, i.e. `Extend` is never called after `Unlock` has begun
releasing. -/
theorem no_extend_after_unlock_begins (timeout : Nat) (s s' : LOState)
    (hreach : Steps (heldState timeout) s) (hnil : s.tick = none)
    (h : Steps s s') : s'.extendCalls = s.extendCalls :=
  (extend_stable_of_tick_none h hnil).2

/-- Witness for **C2**: the stuck post-`Unlock` state reached from
`heldState 30` has ticker field nil, and the trivial continuation preserves
the `Extend` count. -/
theorem no_extend_after_unlock_begins_witness :
    stuckState.extendCalls = stuckState.extendCalls :=
  no_extend_after_unlock_begins 30 stuckState stuckState stuck_reachable rfl
    Relation.ReflTransGen.refl

/-- **C3 counterexample.** The claim that the renewal task terminates within
one tick period after `Unlock()` returns is false: with `timeout = 30`, run
the goroutine up to its blocking channel receive, then run `Unlock()` to
completion before any tick fires. `Unlock()` has returned (after stopping the
ticker and releasing the wrapped lock), yet the goroutine is parked on `<-ch`
forever — the stopped ticker never delivers another tick, so no continuation
of the execution ever reaches the goroutine's `return`. -/
theorem unlock_leaves_renewal_task_blocked :
    Steps (heldState 30) stuckState ∧
    stuckState.unPC = UnPC.returned ∧
    stuckState.innerUnlocks = 1 ∧
    stuckState.goPC ≠ GoPC.done ∧
    ∀ s', Steps stuckState s' → s'.goPC ≠ GoPC.done := by
  refine ⟨stuck_reachable, rfl, rfl, by decide, ?_⟩
  intro s' h
  rw [stuck_stays s' h]
  decide

/-- **C3 (amended).** A single `Unlock()` after a successful `Lock()` first
stops the ticker and clears the ticker field, and only then calls the wrapped
locker's `Unlock()` exactly once; after `Unlock()` returns no further `Extend`
call ever occurs; and if a tick was already buffered in the channel, the
renewal task terminates as soon as it processes it (one tick period at most) —
but with no buffered tick the task stays blocked on the channel (see the
counterexample). Stated for any state `s` in which `Unlock()` has just been
invoked while the ticker is live. -/
theorem unlock_stops_then_releases (s : LOState)
    (hun : s.unPC = UnPC.acquiring) (hmu : s.mu = MuOwner.free)
    (htick : s.tick ≠ none) :
    Step s { s with mu := MuOwner.caller, unPC := UnPC.critical } ∧
    Step { s with mu := MuOwner.caller, unPC := UnPC.critical }
      { s with mu := MuOwner.caller, tick := none, tickerActive := false,
               unPC := UnPC.cleared } ∧
    Step { s with mu := MuOwner.caller, tick := none, tickerActive := false,
                  unPC := UnPC.cleared }
      { s with mu := MuOwner.caller, tick := none, tickerActive := false,
               innerUnlocks := s.innerUnlocks + 1, unPC := UnPC.innerDone } ∧
    Step { s with mu := MuOwner.caller, tick := none, tickerActive := false,
                  innerUnlocks := s.innerUnlocks + 1, unPC := UnPC.innerDone }
      { s with mu := MuOwner.free, tick := none, tickerActive := false,
               innerUnlocks := s.innerUnlocks + 1, unPC := UnPC.returned } ∧
    (∀ s', Steps { s with mu := MuOwner.free, tick := none,
                          tickerActive := false,
                          innerUnlocks := s.innerUnlocks + 1,
                          unPC := UnPC.returned } s' →
      s'.extendCalls = s.extendCalls) ∧
    (s.goPC = GoPC.waitTick → s.pendingTick = true →
      ∃ s', Steps { s with mu := MuOwner.free, tick := none,
                           tickerActive := false,
                           innerUnlocks := s.innerUnlocks + 1,
                           unPC := UnPC.returned } s' ∧
        s'.goPC = GoPC.done) := by
  refine ⟨Step.unStart hun hmu, Step.unClearSome rfl htick, Step.unInner rfl,
    Step.unRelease rfl, ?_, ?_⟩
  · intro s' h
    exact (extend_stable_of_tick_none h rfl).2
  · intro hgo hpend
    refine ⟨_, Relation.ReflTransGen.head (Step.goRecv hgo hpend) <|
      Relation.ReflTransGen.head (Step.goLockBottom rfl rfl) <|
        Relation.ReflTransGen.single (Step.goExitBottom rfl rfl), rfl⟩

/-- Witness for the amended **C3**: a held state whose goroutine waits on the
channel with one buffered tick, on which `Unlock()` has just been invoked. -/
theorem unlock_stops_then_releases_witness :
    Step ⟨some 10, true, true, MuOwner.free, GoPC.waitTick, UnPC.acquiring,
          1, 0, 0⟩
      ⟨some 10, true, true, MuOwner.caller, GoPC.waitTick, UnPC.critical,
       1, 0, 0⟩ ∧
    (∃ s', Steps ⟨none, false, true, MuOwner.free, GoPC.waitTick,
                  UnPC.returned, 1, 0, 1⟩ s' ∧ s'.goPC = GoPC.done) :=
  ⟨(unlock_stops_then_releases _ rfl rfl (by decide)).1,
   (unlock_stops_then_releases
      ⟨some 10, true, true, MuOwner.free, GoPC.waitTick, UnPC.acquiring,
       1, 0, 0⟩ rfl rfl (by decide)).2.2.2.2.2 rfl rfl⟩

/-- **C4.** When the wrapped locker's `Lock()` fails with error `e`,
`longOperation.Lock()` returns that same error and leaves the wrapper state
untouched: no ticker is created and no renewal goroutine is started. -/
theorem lock_failure_propagates {E : Type*} (timeout : Nat) (e : E)
    (s : LOState) :
    longOperationLock timeout (some e) s = (some e, s) :=
  rfl

/-! ## Claim theorem for the factory -/

/-- **C5.** The factory returns the in-memory `Getter` exactly when no redis
client is configured (the client is nil), and the redis-backed `Getter`
otherwise. -/
theorem new_selects_backend {C : Type*} (client : Option C) :
    (New client = GetterKind.inMemory ↔ client = none) ∧
    (New client = GetterKind.redis ↔ client ≠ none) := by
  cases client <;> simp [New]

/-! ## The key-naming function

The code that builds lock keys is not under `src/`: only the `Getter`
interface and its documentation are (src/unnamed/part_001 lines 12-21),
stating that a lock name is the instance domain, then a slash, then the
package name (e.g. `alice.example.net/vfs`). -/

/-- Modelled from the spec: the key-naming function `key(tenant, name)`, whose
implementation is missing from `src/`; per the spec's recommended form and the
`Getter` interface comment, the key is the tenant identifier, a slash, then
the resource name. Strings are modelled as lists of characters. -/
def key (tenant name : List Char) : List Char :=
  tenant ++ '/' :: name

/-- Splitting at a separator absent from both left parts is unique. -/
lemma sep_split_unique {α : Type*} (sep : α) :
    ∀ t1 t2 n1 n2 : List α, sep ∉ t1 → sep ∉ t2 →
      t1 ++ sep :: n1 = t2 ++ sep :: n2 → t1 = t2 ∧ n1 = n2 := by
  intro t1
  induction t1 with
  | nil =>
      intro t2 n1 n2 _ h2 h
      cases t2 with
      | nil => simpa using h
      | cons d t2' =>
          simp only [List.nil_append, List.cons_append, List.cons.injEq] at h
          exact absurd (h.1 ▸ List.mem_cons_self d t2') h2
  | cons c t1' ih =>
      intro t2 n1 n2 h1 h2 h
      cases t2 with
      | nil =>
          simp only [List.nil_append, List.cons_append, List.cons.injEq] at h
          exact absurd (h.1 ▸ List.mem_cons_self c t1') h1
      | cons d t2' =>
          simp only [List.cons_append, List.cons.injEq] at h
          have := ih t2' n1 n2 (fun hm => h1 (List.mem_cons_of_mem c hm))
            (fun hm => h2 (List.mem_cons_of_mem d hm)) h.2
          exact ⟨by rw [h.1, this.1], this.2⟩

/-- **C6 counterexample.** The key mapping is not collision-free over all
(tenant, name) pairs: when a tenant may itself contain a slash, two distinct
pairs produce the same key, here `("a", "b/c")` and `("a/b", "c")`, both
mapping to `"a/b/c"`. -/
theorem key_collision_concrete :
    key ['a'] ['b', '/', 'c'] = key ['a', '/', 'b'] ['c'] ∧
    ¬((['a'] : List Char) = ['a', '/', 'b'] ∧
      (['b', '/', 'c'] : List Char) = ['c']) := by
  decide

/-- **C6 (amended).** The key mapping is collision-free on pairs whose tenant
identifier contains no slash (which holds for instance domains): for slash-free
tenants, `key t1 n1 = key t2 n2` implies `t1 = t2` and `n1 = n2`. Moreover the
particular consequence quoted by the spec holds with no restriction at all:
`key t1 n ≠ key t2 n` whenever `t1 ≠ t2`. -/
theorem key_injective_on_slashfree_tenants :
    (∀ t1 n1 t2 n2 : List Char, '/' ∉ t1 → '/' ∉ t2 →
      key t1 n1 = key t2 n2 → t1 = t2 ∧ n1 = n2) ∧
    (∀ t1 t2 n : List Char, t1 ≠ t2 → key t1 n ≠ key t2 n) := by
  constructor
  · intro t1 n1 t2 n2 h1 h2 h
    exact sep_split_unique '/' t1 t2 n1 n2 h1 h2 h
  · intro t1 t2 n hne h
    exact hne (List.append_cancel_right h)

/-- Witness for the amended **C6** on concrete slash-free tenants. -/
theorem key_injective_on_slashfree_tenants_witness :
    ((['a'] : List Char) = ['a'] ∧ (['b'] : List Char) = ['b']) ∧
    key ['x'] ['n'] ≠ key ['y'] ['n'] :=
  ⟨key_injective_on_slashfree_tenants.1 ['a'] ['b'] ['a'] ['b']
      (by decide) (by decide) rfl,
   key_injective_on_slashfree_tenants.2 ['x'] ['y'] ['n'] (by decide)⟩

/-! ## Mutual exclusion of the exclusive lock

The backend lock implementations are not under `src/` — only the
`ErrorRWLocker` / `ErrorLocker` interfaces they implement are
(src/unnamed/part_001 lines 31-42). Per the spec, exclusive acquisition is an
atomic set-if-absent of a holder on the key (native mutex for the in-memory
backend, redis SET-if-absent for the distributed one), and a `Lock()` call
returns success only once it has installed itself as the holder. -/

/-- Program counter of one client thread racing for the exclusive lock on one
(tenant, name) key. `inCS` means its `Lock()` returned success and it has not
yet called `Unlock()`. -/
inductive ClientPC
  | idle
  | wantLock
  | inCS
  | released
  deriving DecidableEq

/-- Modelled from the spec: two client threads `A` and `B` race for the
exclusive lock on one key, whose backend implementation is missing from
`src/`. `holder` is the key's current holder recorded by the backend
(`none` = free, `some false` = A, `some true` = B). -/
structure RaceState where
  holder : Option Bool
  pcA : ClientPC
  pcB : ClientPC
  deriving DecidableEq

/-- Modelled from the spec: one atomic action of the race — a client invokes
`Lock()`, a blocked client's atomic set-if-absent succeeds (contention only
blocks and retries, it never lets `Lock()` return success without installing
the holder), or a holder releases. -/
inductive RaceStep : RaceState → RaceState → Prop
  | callA {s : RaceState} : s.pcA = ClientPC.idle →
      RaceStep s { s with pcA := ClientPC.wantLock }
  | acquireA {s : RaceState} : s.pcA = ClientPC.wantLock → s.holder = none →
      RaceStep s { s with holder := some false, pcA := ClientPC.inCS }
  | releaseA {s : RaceState} : s.pcA = ClientPC.inCS →
      RaceStep s { s with holder := none, pcA := ClientPC.released }
  | callB {s : RaceState} : s.pcB = ClientPC.idle →
      RaceStep s { s with pcB := ClientPC.wantLock }
  | acquireB {s : RaceState} : s.pcB = ClientPC.wantLock → s.holder = none →
      RaceStep s { s with holder := some true, pcB := ClientPC.inCS }
  | releaseB {s : RaceState} : s.pcB = ClientPC.inCS →
      RaceStep s { s with holder := none, pcB := ClientPC.released }

/-- Finitely many steps of the two-client race. -/
def RaceSteps : RaceState → RaceState → Prop := Relation.ReflTransGen RaceStep

/-- The race's starting state: the key is free, neither client has called
`Lock()`. -/
def raceStart : RaceState :=
  { holder := none, pcA := ClientPC.idle, pcB := ClientPC.idle }

/-- Invariant: a client is in its critical section only while the backend
records it as the holder. -/
lemma race_holder_invariant {s : RaceState} (h : RaceSteps raceStart s) :
    (s.pcA = ClientPC.inCS → s.holder = some false) ∧
    (s.pcB = ClientPC.inCS → s.holder = some true) := by
  induction h with
  | refl => simp [raceStart]
  | tail _ st ih =>
      obtain ⟨hA, hB⟩ := ih
      cases st <;> simp_all

/-- **C7.** Mutual exclusion: in every reachable state of two concurrent
`Lock()` calls on the same (tenant, name) key, the two clients are never both
past a successful `Lock()` and before their `Unlock()`. -/
theorem lock_mutual_exclusion (s : RaceState) (h : RaceSteps raceStart s) :
    ¬(s.pcA = ClientPC.inCS ∧ s.pcB = ClientPC.inCS) := by
  rintro ⟨hA, hB⟩
  obtain ⟨iA, iB⟩ := race_holder_invariant h
  have := (iA hA).symm.trans (iB hB)
  simp at this

/-- Witness for **C7** at the reachable state where A holds the lock and B is
still blocked retrying. -/
theorem lock_mutual_exclusion_witness :
    ¬((⟨some false, ClientPC.inCS, ClientPC.wantLock⟩ : RaceState).pcA
        = ClientPC.inCS ∧
      (⟨some false, ClientPC.inCS, ClientPC.wantLock⟩ : RaceState).pcB
        = ClientPC.inCS) :=
  lock_mutual_exclusion ⟨some false, ClientPC.inCS, ClientPC.wantLock⟩
    (Relation.ReflTransGen.head (RaceStep.callA rfl) <|
      Relation.ReflTransGen.head (RaceStep.callB rfl) <|
        Relation.ReflTransGen.head (RaceStep.acquireA rfl rfl) <|
          Relation.ReflTransGen.refl)

/-! ## Distributed exclusive release

The redis backend implementation is not under `src/`; the spec specifies the
exclusive release as an atomic delete-if-token-matches that is always reported
as success. -/

/-- Modelled from the spec: the distributed backend's exclusive release, whose
implementation is missing from `src/`. The lease stored for a key is
`some (token, expiry)` or `none`; release deletes the lease only when its
token matches the releasing holder's token, and in all cases reports success
(`true`) to the caller. Tokens are opaque per-acquisition values, modelled as
naturals. -/
def releaseExclusive (lease : Option (Nat × Nat)) (myToken : Nat) :
    Option (Nat × Nat) × Bool :=
  match lease with
  | some (token, expiry) =>
      if token = myToken then (none, true) else (some (token, expiry), true)
  | none => (none, true)

/-- **C8.** Distributed exclusive release with a stale token is a no-op
reported as success: whenever the stored lease's token no longer matches the
releasing holder's token, `Unlock()` leaves the current holder's lease
unchanged and still reports success — the mismatch is never surfaced as an
error; and release always reports success, whatever the store holds. -/
theorem release_stale_token_noop (lease : Option (Nat × Nat)) (myToken : Nat)
    (hstale : ∀ token expiry, lease = some (token, expiry) → token ≠ myToken) :
    releaseExclusive lease myToken = (lease, true) ∧
    ∀ l : Option (Nat × Nat), (releaseExclusive l myToken).2 = true := by
  constructor
  · match lease, hstale with
    | none, _ => rfl
    | some (token, expiry), hstale =>
        simp [releaseExclusive, hstale token expiry rfl]
  · intro l
    match l with
    | none => rfl
    | some (token, expiry) =>
        by_cases h : token = myToken <;> simp [releaseExclusive, h]

/-- Witness for **C8**: token 7 stored, holder 9 releasing. -/
theorem release_stale_token_noop_witness :
    releaseExclusive (some (7, 100)) 9 = (some (7, 100), true) :=
  (release_stale_token_noop (some (7, 100)) 9
    (by intro t e h; simp_all; omega)).1

end CozyLock

namespace CozyAccount

/-! ## Account credential encryption (src/model/account/credentials.go)

Byte slices and Go strings are modelled as `List Nat` with byte values
understood modulo 256 where the code truncates. The NaCl `box.Seal` /
`box.Open` primitives (and the key pair folded into them) are external
collaborators, passed as explicit function parameters; their correctness
(`Open` inverts `Seal` under the matching keys) is a hypothesis of the
round-trip theorem. -/

/-- The 4-byte cipher header `"nacl"` (bytes of `n`, `a`, `c`, `l`),
`cipherHeader` in src/model/account/credentials.go line 19. -/
def cipherHeader : List Nat := [110, 97, 99, 108]

/-- `nonceLen` (src/model/account/credentials.go line 20). -/
def nonceLen : Nat := 24

/-- `plainPrefixLen` (src/model/account/credentials.go line 21). -/
def plainPrefixLen : Nat := 4

/-- Go's `uint32(n)` conversion: truncation modulo `2^32`. -/
def toUint32 (n : Nat) : Nat := n % 2 ^ 32

/-- `binary.BigEndian.PutUint32`: the four big-endian bytes of a `uint32`
(each written through Go's truncating `byte(...)` conversion). -/
def putUint32 (v : Nat) : List Nat :=
  [v / 2 ^ 24 % 256, v / 2 ^ 16 % 256, v / 2 ^ 8 % 256, v % 256]

/-- `binary.BigEndian.Uint32`: reads the first four bytes big-endian; Go
panics (slice bounds check on `b[3]`) when fewer than four bytes are
present, modelled as `none`. -/
def getUint32 : List Nat → Option Nat
  | b0 :: b1 :: b2 :: b3 :: _ =>
      some (b0 * 2 ^ 24 + b1 * 2 ^ 16 + b2 * 2 ^ 8 + b3)
  | _ => none

/-- Embedding of `EncryptCredentialsWithKey`
(src/model/account/credentials.go lines 32-61) up to, and not including, the
final `base64.StdEncoding.EncodeToString`: this is the byte slice
`encryptedCreds` that the Go function base64-encodes, so base64-decoding the
Go function's output yields exactly this list. `boxSeal` is `box.Seal` with the
key pair already applied; `nonce` is the 24-byte value drawn from
`rand.Reader`. The plaintext buffer is the login length as a big-endian
`uint32`, then the login bytes, then the password bytes; the sealed box is
appended after the header and the nonce, exactly as `box.Seal(encryptedOut,
creds, &nonce, ...)` does. -/
def encryptCredentialsWithKey (boxSeal : List Nat → List Nat → List Nat)
    (login password nonce : List Nat) : List Nat :=
  cipherHeader ++ nonce ++
    boxSeal nonce (putUint32 (toUint32 login.length) ++ login ++ password)

/-- Result of `DecryptCredentialsWithKey`: a decrypted (login, password) pair
with nil error, the `("", "", ErrBadCredentials)` return, or a Go runtime
panic (the unchecked `binary.BigEndian.Uint32` read on a too-short
plaintext). -/
inductive DecryptResult
  | ok (login password : List Nat)
  | badCredentials
  | panicked
  deriving DecidableEq

/-- Embedding of `DecryptCredentialsWithKey`
(src/model/account/credentials.go lines 123-162). `boxOpen` is `box.Open` with
the key pair already applied (`none` = the `!ok` branch). Mirrors the Go
control flow: check the `"nacl"` header with `bytes.HasPrefix`, skip it,
check room for the 24-byte nonce, split the nonce off, open the box, read the
big-endian login length, skip the 4-byte length prefix, check the remainder
is at least the login length, and split login from password. -/
def decryptCredentialsWithKey (boxOpen : List Nat → List Nat → Option (List Nat))
    (encryptedCreds : List Nat) : DecryptResult :=
  if encryptedCreds.take cipherHeader.length ≠ cipherHeader then
    DecryptResult.badCredentials
  else
    let afterHeader := encryptedCreds.drop cipherHeader.length
    if afterHeader.length < nonceLen then DecryptResult.badCredentials
    else
      match boxOpen (afterHeader.take nonceLen) (afterHeader.drop nonceLen) with
      | none => DecryptResult.badCredentials
      | some creds =>
          match getUint32 creds with
          | none => DecryptResult.panicked
          | some loginLen =>
              let afterLen := creds.drop plainPrefixLen
              if afterLen.length < loginLen then DecryptResult.badCredentials
              else DecryptResult.ok (afterLen.take loginLen)
                (afterLen.drop loginLen)

/-- Big-endian `uint32` round trip: decoding the four bytes written by
`putUint32` recovers the encoded value, for values below `2^32`, whatever
bytes follow. -/
lemma getUint32_putUint32_append (v : Nat) (hv : v < 2 ^ 32) (rest : List Nat) :
    getUint32 (putUint32 v ++ rest) = some v := by
  simp only [putUint32, List.cons_append, List.nil_append, getUint32,
    Option.some.injEq]
  omega

/-- **C9.** Round trip: for every login shorter than `2^32` bytes, every
password, and every 24-byte nonce drawn at encryption time, base64-decoding
the output of `EncryptCredentialsWithKey` (which yields exactly the byte
slice modelled by `encryptCredentialsWithKey`) and passing it to
`DecryptCredentialsWithKey` with the matching key returns the original
(login, password) with nil error. The NaCl box correctness (`box.Open`
inverts `box.Seal` under the matching key pair) is the hypothesis `hbox`. -/
theorem encrypt_decrypt_roundtrip
    (boxSeal : List Nat → List Nat → List Nat)
    (boxOpen : List Nat → List Nat → Option (List Nat))
    (hbox : ∀ n m, boxOpen n (boxSeal n m) = some m)
    (login password nonce : List Nat)
    (hlen : login.length < 2 ^ 32) (hnonce : nonce.length = nonceLen) :
    decryptCredentialsWithKey boxOpen
      (encryptCredentialsWithKey boxSeal login password nonce)
      = DecryptResult.ok login password := by
  have hL : toUint32 login.length = login.length := Nat.mod_eq_of_lt hlen
  have e7 : ¬(login ++ password).length < login.length := by
    simp only [List.length_append, not_lt]
    omega
  have e5' : ¬(nonce ++ boxSeal nonce (putUint32 login.length ++
      (login ++ password))).length < nonceLen := by
    simp only [List.length_append, hnonce, not_lt]
    omega
  have hP' : (putUint32 login.length).length = plainPrefixLen := rfl
  simp only [encryptCredentialsWithKey, decryptCredentialsWithKey, hL,
    List.append_assoc, List.take_left, ne_eq, not_true_eq_false, if_false,
    List.drop_left, List.take_left' hnonce, List.drop_left' hnonce, hbox]
  simp only [e5', if_false, getUint32_putUint32_append login.length hlen,
    List.drop_left' hP', e7, List.take_left, List.drop_left]

/-- Witness for **C9**: login `"hi"`, password `"pw"`, all-zero nonce, with
the identity box (`boxSeal` returning the plaintext, `boxOpen` wrapping it in
`some`), which satisfies the box-correctness hypothesis definitionally. -/
theorem encrypt_decrypt_roundtrip_witness :
    (([104, 105] : List Nat).length < 2 ^ 32 ∧
      (List.replicate 24 0).length = nonceLen) ∧
    decryptCredentialsWithKey (fun _ c => some c)
      (encryptCredentialsWithKey (fun _ m => m) [104, 105] [112, 119]
        (List.replicate 24 0)) = DecryptResult.ok [104, 105] [112, 119] :=
  ⟨⟨by norm_num, by decide⟩,
   encrypt_decrypt_roundtrip (fun _ m => m) (fun _ c => some c)
     (fun _ _ => rfl) [104, 105] [112, 119] (List.replicate 24 0)
     (by norm_num) (by decide)⟩

/-- **C10.** For every decryptor key and every input that does not begin with
the 4-byte `"nacl"` header, or whose remainder after the header is shorter
than the 24-byte nonce, `DecryptCredentialsWithKey` returns empty login and
password with `ErrBadCredentials` (the `badCredentials` result) — in
particular it does not panic on such input. -/
theorem decrypt_malformed (boxOpen : List Nat → List Nat → Option (List Nat))
    (input : List Nat)
    (h : input.take cipherHeader.length ≠ cipherHeader ∨
      (input.drop cipherHeader.length).length < nonceLen) :
    decryptCredentialsWithKey boxOpen input = DecryptResult.badCredentials := by
  rcases h with h | h
  · simp only [decryptCredentialsWithKey, if_pos h]
  · by_cases h1 : input.take cipherHeader.length ≠ cipherHeader
    · simp only [decryptCredentialsWithKey, if_pos h1]
    · simp only [decryptCredentialsWithKey, if_neg h1, if_pos h]

/-- Witness for **C10**: the three-byte input `[1, 2, 3]` lacks the header
and is rejected as bad credentials. -/
theorem decrypt_malformed_witness :
    (([1, 2, 3] : List Nat).take cipherHeader.length ≠ cipherHeader ∨
      (([1, 2, 3] : List Nat).drop cipherHeader.length).length < nonceLen) ∧
    decryptCredentialsWithKey (fun _ c => some c) [1, 2, 3] =
      DecryptResult.badCredentials :=
  ⟨Or.inl (by decide), decrypt_malformed (fun _ c => some c) [1, 2, 3]
    (Or.inl (by decide))⟩

end CozyAccount
